import Mathlib

/-!
Shallow embedding of the catalog page (src/app/catalog/page.tsx): the
Product record, the fetch handler, the filter/sort pipeline run by the
effect over (products, searchTerm, selectedCategory, selectedMetal,
sortBy), and the reset control of the empty-results panel.

Modelling conventions:
* JS numbers used only for ordering (rating, reviews) are modelled as Int.
* String.prototype.toLowerCase is modelled by String.toLower, and
  String.prototype.includes by infix containment on the character lists.
* a.name.localeCompare(b.name) is modelled as the sign of lexicographic
  string comparison.
* Array.prototype.sort is stable and, for a consistent comparator cmp,
  orders the array by the boolean relation fun a b => cmp a b ≤ 0; it is
  modelled by the stable List.mergeSort with that relation.
* Array.prototype.filter returns a fresh array while sort works in place;
  productsAfter below records the resulting aliasing effect on the
  products state.
-/

/-- The Product record (interface Product in the source). -/
structure Product where
  id : String
  name : String
  category : String
  image : String
  rating : Int
  reviews : Int
  metal : String
  purity : String
  weight : String
  description : String
  deriving DecidableEq, Repr

/-- Case-insensitive substring test:
hay.toLowerCase().includes(needle.toLowerCase()) in the source. -/
def containsCI (hay needle : String) : Bool :=
  decide (needle.toLower.data <:+: hay.toLower.data)

/-- The predicate of the search filter step: the product is kept when its
name, category or description contains the search term case-insensitively. -/
def matchesSearch (searchTerm : String) (product : Product) : Bool :=
  containsCI product.name searchTerm ||
    containsCI product.category searchTerm ||
      containsCI product.description searchTerm

/-- Search filter step: runs only when searchTerm is truthy, i.e. not the
empty string. -/
def searchStep (searchTerm : String) (l : List Product) : List Product :=
  if searchTerm ≠ "" then l.filter (matchesSearch searchTerm) else l

/-- Category filter step: exact, case-sensitive equality, skipped for the
sentinel value all. -/
def categoryStep (selectedCategory : String) (l : List Product) : List Product :=
  if selectedCategory ≠ "all" then
    l.filter (fun product => product.category = selectedCategory)
  else l

/-- Metal filter step: lower-cased equality, skipped for the sentinel
value all. -/
def metalStep (selectedMetal : String) (l : List Product) : List Product :=
  if selectedMetal ≠ "all" then
    l.filter (fun product => product.metal.toLower = selectedMetal.toLower)
  else l

/-- The sort comparator of the source, as an integer-valued function: the
switch on sortBy returns b.rating - a.rating for rating, b.reviews -
a.reviews for reviews, and a.name.localeCompare(b.name) for name and for
every other value (the default branch). localeCompare is modelled as the
sign of lexicographic string comparison. -/
def cmpFor (sortBy : String) (a b : Product) : Int :=
  if sortBy = "rating" then b.rating - a.rating
  else if sortBy = "reviews" then b.reviews - a.reviews
  else if a.name < b.name then -1 else if b.name < a.name then 1 else 0

/-- The non-strict order induced by the comparator: a may precede b
exactly when the comparator is non-positive. -/
def leFor (sortBy : String) (a b : Product) : Bool :=
  cmpFor sortBy a b ≤ 0

/-- Sort step: Array.prototype.sort with the comparator, modelled by the
stable merge sort over the induced order. -/
def sortStep (sortBy : String) (l : List Product) : List Product :=
  l.mergeSort (leFor sortBy)

/-- The value the effect stores into filteredProducts: search, category
and metal filters in order, then the sort. -/
def computeFiltered (products : List Product)
    (searchTerm selectedCategory selectedMetal sortBy : String) : List Product :=
  sortStep sortBy
    (metalStep selectedMetal (categoryStep selectedCategory (searchStep searchTerm products)))

/-- The value of the products state after the effect has run. In the
source, filtered is initialised to the products array itself; each filter
step that runs rebinds filtered to a fresh array, while Array.prototype.sort
sorts in place. Hence the products array is itself sorted in place exactly
when no filter step runs, i.e. when searchTerm is empty and both selects
hold the sentinel all. -/
def productsAfter (products : List Product)
    (searchTerm selectedCategory selectedMetal sortBy : String) : List Product :=
  if searchTerm = "" ∧ selectedCategory = "all" ∧ selectedMetal = "all" then
    sortStep sortBy products
  else products

/-- A parsed JSON body, as far as the page can tell it apart: either an
array of Product records or some other JSON value. -/
inductive JsonData where
  | arr : List Product → JsonData
  | nonArray : JsonData
  deriving DecidableEq

/-- Outcome of the fetch of /api/admin/products: a network error (the
fetch promise rejects), or a response with an HTTP status code and a body;
the body is none when response.json() fails to parse it, and some data
when it parses to the JSON value data. -/
inductive FetchOutcome where
  | networkError : FetchOutcome
  | response : Nat → Option JsonData → FetchOutcome
  deriving DecidableEq

/-- The value fetchProducts stores into both products and
filteredProducts: the try block awaits fetch and response.json() and
stores the parsed data unconditionally; only a rejected fetch or a failed
parse reaches the catch block, which stores the empty array. The status
code is never inspected. -/
def fetchStores : FetchOutcome → JsonData
  | .networkError => .arr []
  | .response _ none => .arr []
  | .response _ (some data) => data

/-- Whether fetchProducts logs an error: exactly when the catch block
runs. -/
def fetchLogsError : FetchOutcome → Bool
  | .networkError => true
  | .response _ none => true
  | .response _ (some _) => false

/-- The component state touched by the reset control. -/
structure CatalogState where
  products : List Product
  filteredProducts : List Product
  searchTerm : String
  selectedCategory : String
  selectedMetal : String
  sortBy : String
  deriving DecidableEq

/-- The onClick handler of the Clear All Filters button: sets searchTerm
to the empty string and both selects to the sentinel all. -/
def clearAllFilters (s : CatalogState) : CatalogState :=
  { s with searchTerm := "", selectedCategory := "all", selectedMetal := "all" }

/-- Concrete product used in example scenarios. -/
def goldRing : Product :=
  { id := "1", name := "Gold Ring", category := "Rings", image := "",
    rating := 4, reviews := 10, metal := "Gold", purity := "22K",
    weight := "5g", description := "a gold ring" }

/-- Concrete product used in example scenarios. -/
def silverBand : Product :=
  { id := "2", name := "Silver Band", category := "Rings", image := "",
    rating := 5, reviews := 2, metal := "Silver", purity := "925",
    weight := "3g", description := "a silver band" }

/-- Unfolding of leFor: for rating and reviews it is the reversed numeric
order on that field, and for every other sortBy value the lexicographic
order on names. -/
theorem leFor_iff (sortBy : String) (a b : Product) :
    leFor sortBy a b = true ↔
      (if sortBy = "rating" then b.rating ≤ a.rating
       else if sortBy = "reviews" then b.reviews ≤ a.reviews
       else a.name ≤ b.name) := by
  unfold leFor cmpFor
  split_ifs with h1 h2 h3 h4
  · simp
  · simp
  · simp only [decide_eq_true_eq]
    exact iff_of_true (by norm_num) (le_of_lt h3)
  · simp only [decide_eq_true_eq]
    exact iff_of_false (by norm_num) (not_le.mpr h4)
  · simp only [decide_eq_true_eq]
    exact iff_of_true le_rfl (not_lt.mp h4)

/-- The induced order is total. -/
theorem leFor_total (sortBy : String) (a b : Product) :
    leFor sortBy a b || leFor sortBy b a := by
  rw [Bool.or_eq_true, leFor_iff, leFor_iff]
  split_ifs with h1 h2
  · exact le_total b.rating a.rating
  · exact le_total b.reviews a.reviews
  · exact le_total a.name b.name

/-- The induced order is transitive. -/
theorem leFor_trans (sortBy : String) (a b c : Product) :
    leFor sortBy a b → leFor sortBy b c → leFor sortBy a c := by
  intro hab hbc
  rw [leFor_iff] at hab hbc ⊢
  split_ifs at hab hbc ⊢ with h1 h2
  · omega
  · omega
  · exact le_trans hab hbc

/-- The default branch of the comparator: any sortBy other than rating
and reviews compares exactly as name does. -/
theorem cmpFor_default (sortBy : String) (h1 : sortBy ≠ "rating")
    (h2 : sortBy ≠ "reviews") (a b : Product) :
    cmpFor sortBy a b = cmpFor "name" a b := by
  unfold cmpFor
  rw [if_neg h1, if_neg h2, if_neg (by decide : ¬("name" : String) = "rating"),
    if_neg (by decide : ¬("name" : String) = "reviews")]

/-- With no active filter, the pipeline reduces to the sort step. -/
theorem computeFiltered_no_filters (P : List Product) (sortBy : String) :
    computeFiltered P "" "all" "all" sortBy = sortStep sortBy P := by
  rw [computeFiltered, searchStep, if_neg (by decide : ¬("" : String) ≠ ""),
    categoryStep, if_neg (by decide : ¬("all" : String) ≠ "all"),
    metalStep, if_neg (by decide : ¬("all" : String) ≠ "all")]

/-- Claim C1: the claim states the pipeline never mutates the unfiltered
product list. It fails: when no filter step runs, the local variable
filtered still aliases the products array and the in-place sort reorders
the products state itself. At products = [silverBand, goldRing] with
empty search, both sentinels and sortBy name, the stored products list
comes out reordered. -/
theorem C1_pipeline_mutates_products :
    productsAfter [silverBand, goldRing] "" "all" "all" "name" ≠
      [silverBand, goldRing] := by
  have h : productsAfter [silverBand, goldRing] "" "all" "all" "name" =
      [goldRing, silverBand] := by
    rw [productsAfter, if_pos ⟨rfl, rfl, rfl⟩]
    simp [sortStep, List.mergeSort, List.splitInTwo, List.merge, leFor, cmpFor,
      goldRing, silverBand]
    decide
  rw [h]
  decide

/-- Claim C2: the claim states every failing fetch, including a non-success
HTTP status and a JSON body that is not an array, stores the empty list in
both product states and logs the error. It fails: the handler never
inspects the status and stores any body that parses as JSON, so a status
500 response with a JSON object body is stored verbatim into both states
and nothing is logged. -/
theorem C2_error_response_stored :
    fetchStores (.response 500 (some .nonArray)) = .nonArray ∧
      JsonData.nonArray ≠ JsonData.arr [] ∧
      fetchLogsError (.response 500 (some .nonArray)) = false :=
  ⟨rfl, by decide, rfl⟩

/-- Claim C3: with empty search term and both sentinel filters, the
pipeline output is a permutation of the input list, ordered by the
comparator that sortBy selects. -/
theorem C3_no_filter_permutation (P : List Product) (sortBy : String) :
    List.Perm (computeFiltered P "" "all" "all" sortBy) P ∧
      (computeFiltered P "" "all" "all" sortBy).Pairwise
        (fun a b => leFor sortBy a b = true) := by
  rw [computeFiltered_no_filters]
  exact ⟨List.mergeSort_perm P (leFor sortBy),
    List.sorted_mergeSort (leFor_trans sortBy) (leFor_total sortBy) P⟩

/-- Claim C4: for a non-empty search term, a product is retained by the
search step exactly when its name, category or description contains the
term as a case-insensitive substring; in particular every excluded
product matches on none of the three fields. -/
theorem C4_search_retention (P : List Product) (searchTerm : String)
    (p : Product) (h : searchTerm ≠ "") :
    p ∈ searchStep searchTerm P ↔
      p ∈ P ∧ (containsCI p.name searchTerm ∨ containsCI p.category searchTerm ∨
        containsCI p.description searchTerm) := by
  rw [searchStep, if_pos h]
  simp [List.mem_filter, matchesSearch, or_assoc]

/-- Witness for C4 at the scenario products and the term ring. -/
theorem C4_search_retention_witness :
    goldRing ∈ searchStep "ring" [goldRing, silverBand] ↔
      goldRing ∈ [goldRing, silverBand] ∧
        (containsCI goldRing.name "ring" ∨ containsCI goldRing.category "ring" ∨
          containsCI goldRing.description "ring") :=
  C4_search_retention [goldRing, silverBand] "ring" goldRing (by decide)

/-- Claim C5: for a selected category other than the sentinel all, the
category step retains exactly the products whose category field equals
the selection, case-sensitively. -/
theorem C5_category_retention (P : List Product) (selectedCategory : String)
    (p : Product) (h : selectedCategory ≠ "all") :
    p ∈ categoryStep selectedCategory P ↔
      p ∈ P ∧ p.category = selectedCategory := by
  rw [categoryStep, if_pos h]
  simp [List.mem_filter]

/-- Witness for C5 at the scenario products and the category Rings. -/
theorem C5_category_retention_witness :
    silverBand ∈ categoryStep "Rings" [goldRing, silverBand] ↔
      silverBand ∈ [goldRing, silverBand] ∧ silverBand.category = "Rings" :=
  C5_category_retention [goldRing, silverBand] "Rings" silverBand (by decide)

/-- Claim C6: for a selected metal other than the sentinel all, the metal
step retains exactly the products whose metal field, lower-cased, equals
the selection lower-cased. -/
theorem C6_metal_retention (P : List Product) (selectedMetal : String)
    (p : Product) (h : selectedMetal ≠ "all") :
    p ∈ metalStep selectedMetal P ↔
      p ∈ P ∧ p.metal.toLower = selectedMetal.toLower := by
  rw [metalStep, if_pos h]
  simp [List.mem_filter]

/-- Witness for C6 at the scenario products and the metal gold. -/
theorem C6_metal_retention_witness :
    goldRing ∈ metalStep "gold" [goldRing, silverBand] ↔
      goldRing ∈ [goldRing, silverBand] ∧
        goldRing.metal.toLower = ("gold" : String).toLower :=
  C6_metal_retention [goldRing, silverBand] "gold" goldRing (by decide)

/-- Claim C7: the sort step orders by rating descending for rating, by
reviews descending for reviews, by name ascending for name, and every
unrecognized sortBy value sorts exactly as name does. -/
theorem C7_sort_orders (l : List Product) (sortBy : String)
    (h1 : sortBy ≠ "rating") (h2 : sortBy ≠ "reviews") :
    (sortStep "rating" l).Pairwise (fun a b => b.rating ≤ a.rating) ∧
      (sortStep "reviews" l).Pairwise (fun a b => b.reviews ≤ a.reviews) ∧
      (sortStep "name" l).Pairwise (fun a b => a.name ≤ b.name) ∧
      sortStep sortBy l = sortStep "name" l := by
  refine ⟨?_, ?_, ?_, ?_⟩
  · exact (List.sorted_mergeSort (leFor_trans "rating") (leFor_total "rating") l).imp
      (fun hab => by rwa [leFor_iff, if_pos rfl] at hab)
  · exact (List.sorted_mergeSort (leFor_trans "reviews") (leFor_total "reviews") l).imp
      (fun hab => by
        rwa [leFor_iff, if_neg (by decide : ¬("reviews" : String) = "rating"),
          if_pos rfl] at hab)
  · exact (List.sorted_mergeSort (leFor_trans "name") (leFor_total "name") l).imp
      (fun hab => by
        rwa [leFor_iff, if_neg (by decide : ¬("name" : String) = "rating"),
          if_neg (by decide : ¬("name" : String) = "reviews")] at hab)
  · unfold sortStep
    congr 1
    funext a b
    unfold leFor
    rw [cmpFor_default sortBy h1 h2 a b]

/-- Witness for C7 at the scenario products and an unrecognized sortBy. -/
theorem C7_sort_orders_witness :
    sortStep "popularity" [goldRing, silverBand] =
      sortStep "name" [goldRing, silverBand] :=
  (C7_sort_orders [goldRing, silverBand] "popularity" (by decide) (by decide)).2.2.2

/-- Claim C8: the sort is stable: for any pivot product p, the products
tied with p under the comparator appear in the sorted output in exactly
their original relative order. -/
theorem C8_sort_stability (l : List Product) (sortBy : String) (p : Product) :
    (sortStep sortBy l).filter (fun q => leFor sortBy p q && leFor sortBy q p) =
      l.filter (fun q => leFor sortBy p q && leFor sortBy q p) := by
  simp only [sortStep]
  set tie : Product → Bool := fun q => leFor sortBy p q && leFor sortBy q p with htie
  have hpair : (l.filter tie).Pairwise (fun a b => leFor sortBy a b = true) := by
    apply List.pairwise_of_forall_mem_list
    intro a ha b hb
    rw [List.mem_filter, htie, Bool.and_eq_true] at ha hb
    exact leFor_trans sortBy a p b ha.2.2 hb.2.1
  have hsub : List.Sublist (l.filter tie) (List.mergeSort l (leFor sortBy)) :=
    List.sublist_mergeSort (leFor_trans sortBy) (leFor_total sortBy) hpair
      (List.filter_sublist l)
  have hself : (l.filter tie).filter tie = l.filter tie :=
    List.filter_eq_self.mpr (fun a ha => (List.mem_filter.mp ha).2)
  have hsub2 : List.Sublist (l.filter tie) ((List.mergeSort l (leFor sortBy)).filter tie) := by
    rw [← hself]
    exact hsub.filter tie
  have hperm : List.Perm ((List.mergeSort l (leFor sortBy)).filter tie) (l.filter tie) :=
    (List.mergeSort_perm l (leFor sortBy)).filter tie
  exact (hsub2.eq_of_length hperm.length_eq.symm).symm

/-- Claim C9: the sort step is idempotent: sorting an already sorted list
with the same sortBy leaves it unchanged. -/
theorem C9_sort_idempotent (l : List Product) (sortBy : String) :
    sortStep sortBy (sortStep sortBy l) = sortStep sortBy l :=
  List.mergeSort_of_sorted
    (List.sorted_mergeSort (leFor_trans sortBy) (leFor_total sortBy) l)

/-- Claim C10: the reset control sets the search term to empty and both
selects to the sentinel all, while the sort key and both product lists
are left unchanged. -/
theorem C10_clear_all_filters (s : CatalogState) :
    (clearAllFilters s).searchTerm = "" ∧
      (clearAllFilters s).selectedCategory = "all" ∧
      (clearAllFilters s).selectedMetal = "all" ∧
      (clearAllFilters s).sortBy = s.sortBy ∧
      (clearAllFilters s).products = s.products ∧
      (clearAllFilters s).filteredProducts = s.filteredProducts :=
  ⟨rfl, rfl, rfl, rfl, rfl, rfl⟩
